import Mathlib

/-!
Shallow embedding of the socket.io chat client implemented in
src/src/components/Home.tsx. The React component state, its event handlers
and the continuation of the online-users fetch are translated into pure
functions over an explicit client state; inbound socket events, local form
actions and fetch completions become an event type processed by a step
function that returns the next state together with the outbound emissions
(socket emits and HTTP requests) produced by the handler.
-/

namespace ChatClient

/-- Modelled from the spec: the file src/interfaces/Room.ts is imported by
Home.tsx but is not among the sources. Spec section 3: room is one of a small
closed set of room labels, namely blue and red. -/
inductive Room where
  | blue
  | red
  deriving DecidableEq

/-- Modelled from the spec: the file src/interfaces/IUser.ts is imported by
Home.tsx but is not among the sources. Spec section 6: GET /online-users
returns onlineUsers as a list of records with id, username and room. -/
structure IUser where
  id : String
  username : String
  room : Room
  deriving DecidableEq

/-- Modelled from the spec: the file src/interfaces/IMessage.ts is imported by
Home.tsx but is not among the sources. Spec section 6 together with the
construction at Home.tsx lines 111-116: a message has text, sender, socketId
and a timestamp in milliseconds since the epoch. -/
structure IMessage where
  text : String
  sender : String
  socketId : String
  timestamp : Nat
  deriving DecidableEq

/-- Payload of a client-to-server socket emission (Home.tsx lines 103, 118). -/
inductive Payload where
  | identityPayload (username : String) (room : Room)
  | messagePayload (message : IMessage) (room : Room)
  deriving DecidableEq

/-- An outbound effect of a handler: a named socket emission or an HTTP GET. -/
inductive Emit where
  | socketEmit (eventName : String) (payload : Payload)
  | httpGet (path : String)
  deriving DecidableEq

/-- Completion of the fetch started in fetchOnlineUsers (Home.tsx 130-143).
rejected means the fetch promise rejected or response.json threw; resolved ok
field means the fetch resolved with a response whose ok flag is ok and whose
parsed JSON body carries field as its onlineUsers member, none standing for
the JavaScript value undefined when the member is absent. -/
inductive FetchOutcome where
  | rejected
  | resolved (ok : Bool) (onlineUsersField : Option (List IUser))
  deriving DecidableEq

/-- The React state of the Home component (Home.tsx lines 29-33 and 145)
together with the connection id socket.id and the number of newConnection
listeners registered so far (one listener is added each time the loggedin
handler runs, Home.tsx line 77). onlineUsers is an Option so that the
JavaScript value undefined is representable; the initial value is some []. -/
structure ClientState where
  username : String
  message : String
  loggedIn : Bool
  onlineUsers : Option (List IUser)
  chatHistory : List IMessage
  room : Room
  socketId : String
  newConnListeners : Nat
  deriving DecidableEq

/-- Initial component state: the useState initial values at Home.tsx lines
29-33 and 145, before any listener for newConnection has been registered. -/
def initialState (sid : String) : ClientState :=
  { username := "", message := "", loggedIn := false, onlineUsers := some []
  , chatHistory := [], room := Room.blue, socketId := sid, newConnListeners := 0 }

/-- An occurrence the client reacts to: an inbound socket event, a local input
or form action, or the completion of an online-users fetch. messageSubmit
carries the value of Date.now at the moment of submission (Home.tsx 115). -/
inductive Event where
  | connectEvt
  | loggedinEvt
  | newConnectionEvt
  | messageEvt (newMessage : IMessage)
  | usernameInput (value : String)
  | messageInput (value : String)
  | roomToggle
  | usernameSubmit
  | messageSubmit (now : Nat)
  | fetchCompleteEvt (outcome : FetchOutcome)
  deriving DecidableEq

/-- Home.tsx line 95: the functional updater passed to setChatHistory by the
message listener. React applies it to the history value current at the moment
the update is processed, not to a value captured when the listener was
installed; the captured variant, left commented out at line 92 of the source,
would always read the install-time value instead. -/
def messageUpdater (newMessage : IMessage) : List IMessage → List IMessage :=
  fun chatHistory => chatHistory ++ [newMessage]

/-- Home.tsx lines 111-116: the message record built by handleMessageSubmit
from the draft text, the username, socket.id and Date.now. -/
def mkMessage (st : ClientState) (now : Nat) : IMessage :=
  { text := st.message, sender := st.username, socketId := st.socketId, timestamp := now }

/-- Home.tsx lines 130-143: the continuation of fetchOnlineUsers once the
fetch settles. On rejection the catch block only logs, leaving the state
unchanged. On a resolved response the source tests if (response), that is,
the truthiness of the Response object itself, which holds for every resolved
fetch whatever its ok flag; hence the else branch at line 138 is unreachable
and setOnlineUsers(data.onlineUsers) always runs, storing the onlineUsers
member of the parsed body, which is undefined (none) when that member is
absent. -/
def fetchComplete (st : ClientState) : FetchOutcome → ClientState
  | FetchOutcome.rejected => st
  | FetchOutcome.resolved _ onlineUsersField => { st with onlineUsers := onlineUsersField }

/-- One reaction of the client. Each branch translates the corresponding
handler of Home.tsx, returning the next state and the emissions produced, in
order. Form controls gate their handlers through their disabled flag: the
username field is disabled once loggedIn (line 159) so handleUsernameSubmit
can only fire while logged out, and the message field is disabled until
loggedIn (line 186) so handleMessageSubmit can only fire while logged in; the
room toggle button (lines 161-165) carries no disabled flag and is always
available. -/
def step (st : ClientState) : Event → ClientState × List Emit
  | Event.connectEvt => (st, [])
  | Event.loggedinEvt =>
      ({ st with loggedIn := true, newConnListeners := st.newConnListeners + 1 },
       [Emit.httpGet "/online-users"])
  | Event.newConnectionEvt =>
      (st, List.replicate st.newConnListeners (Emit.httpGet "/online-users"))
  | Event.messageEvt newMessage =>
      ({ st with chatHistory := messageUpdater newMessage st.chatHistory }, [])
  | Event.usernameInput value =>
      (if st.loggedIn then st else { st with username := value }, [])
  | Event.messageInput value =>
      (if st.loggedIn then { st with message := value } else st, [])
  | Event.roomToggle =>
      ({ st with room := if st.room = Room.blue then Room.red else Room.blue }, [])
  | Event.usernameSubmit =>
      if st.loggedIn then (st, [])
      else (st, [Emit.socketEmit "setUsername" (Payload.identityPayload st.username st.room)])
  | Event.messageSubmit now =>
      if st.loggedIn then
        ({ st with chatHistory := st.chatHistory ++ [mkMessage st now], message := "" },
         [Emit.socketEmit "sendmessage" (Payload.messagePayload (mkMessage st now) st.room)])
      else (st, [])
  | Event.fetchCompleteEvt outcome => (fetchComplete st outcome, [])

/-- Processes a list of events in order from a starting state, collecting the
emissions of every step. -/
def runEvents : ClientState → List Event → ClientState × List Emit
  | st, [] => (st, [])
  | st, e :: rest =>
      let first := step st e
      let later := runEvents first.1 rest
      (later.1, first.2 ++ later.2)

/-- The client state reached from the initial state by a list of events. -/
def clientAfter (sid : String) (evts : List Event) : ClientState :=
  (runEvents (initialState sid) evts).1

/-- Home.tsx line 195: the room-filtered projection of the fetched snapshot
that the connected-users column displays. -/
def displayedUsers (users : List IUser) (room : Room) : List IUser :=
  users.filter fun user => decide (user.room = room)

/-- Home.tsx line 196: each displayed entry renders the username field. -/
def displayedUsernames (users : List IUser) (room : Room) : List String :=
  (displayedUsers users room).map IUser.username

/-- Recognises an emission of the sendmessage socket event (Home.tsx 118). -/
def isSendMessage : Emit → Bool
  | Emit.socketEmit eventName _ => decide (eventName = "sendmessage")
  | Emit.httpGet _ => false

/-- Sample logged-in state used to instantiate theorems about the handlers. -/
def sampleLoggedIn : ClientState :=
  { initialState "s" with loggedIn := true, username := "u", message := "hi" }

/-- Sample participant in the blue room. -/
def aliceUser : IUser := ⟨"a1", "alice", Room.blue⟩

/-- Sample participant in the red room. -/
def bobUser : IUser := ⟨"b1", "bob", Room.red⟩

/-- Sample state holding a fetched two-room presence snapshot. -/
def sampleFetched : ClientState :=
  { initialState "s" with onlineUsers := some [aliceUser, bobUser] }

/-- Listener bookkeeping invariant: the client is logged out exactly when no
newConnection listener has been registered, because the only registration
point for that listener is inside the loggedin handler. -/
def ListenerInv (st : ClientState) : Prop :=
  st.loggedIn = false ↔ st.newConnListeners = 0

theorem listenerInv_step (st : ClientState) (e : Event) (h : ListenerInv st) :
    ListenerInv (step st e).1 := by
  cases e with
  | connectEvt => exact h
  | loggedinEvt => simp [ListenerInv, step]
  | newConnectionEvt => exact h
  | messageEvt m => exact h
  | usernameInput v => simp only [step]; split <;> exact h
  | messageInput v => simp only [step]; split <;> exact h
  | roomToggle => exact h
  | usernameSubmit => simp only [step]; split <;> exact h
  | messageSubmit now => simp only [step]; split <;> exact h
  | fetchCompleteEvt outcome => cases outcome <;> exact h

theorem listenerInv_run (st : ClientState) (evts : List Event) (h : ListenerInv st) :
    ListenerInv (runEvents st evts).1 := by
  induction evts generalizing st with
  | nil => exact h
  | cons e rest ih => exact ih _ (listenerInv_step st e h)

theorem listenerInv_clientAfter (sid : String) (evts : List Event) :
    ListenerInv (clientAfter sid evts) :=
  listenerInv_run _ _ (by simp [ListenerInv, initialState])

theorem noSend_step (st : ClientState) (e : Event) (hst : st.loggedIn = false)
    (he : e ≠ Event.loggedinEvt) :
    (step st e).1.loggedIn = false ∧ List.filter isSendMessage (step st e).2 = [] := by
  cases e with
  | connectEvt => exact ⟨hst, rfl⟩
  | loggedinEvt => exact absurd rfl he
  | newConnectionEvt =>
      refine ⟨hst, ?_⟩
      show List.filter isSendMessage
          (List.replicate st.newConnListeners (Emit.httpGet "/online-users")) = []
      generalize st.newConnListeners = n
      induction n with
      | zero => rfl
      | succ k _ih => simp [List.replicate_succ, List.filter_cons, isSendMessage]
  | messageEvt m => exact ⟨hst, rfl⟩
  | usernameInput v => refine ⟨?_, rfl⟩; simp [step, hst]
  | messageInput v => refine ⟨?_, rfl⟩; simp [step, hst]
  | roomToggle => exact ⟨hst, rfl⟩
  | usernameSubmit =>
      refine ⟨?_, ?_⟩ <;> simp [step, hst, List.filter_cons, isSendMessage]
  | messageSubmit now =>
      refine ⟨?_, ?_⟩ <;> simp [step, hst]
  | fetchCompleteEvt outcome => cases outcome <;> exact ⟨hst, rfl⟩

theorem noSend_run (st : ClientState) (evts : List Event) (hst : st.loggedIn = false)
    (h : Event.loggedinEvt ∉ evts) :
    (runEvents st evts).1.loggedIn = false ∧
      List.filter isSendMessage (runEvents st evts).2 = [] := by
  induction evts generalizing st with
  | nil => exact ⟨hst, rfl⟩
  | cons e rest ih =>
      have he : e ≠ Event.loggedinEvt := fun hh => h (by simp [hh])
      have hrest : Event.loggedinEvt ∉ rest := fun hh => h (by simp [hh])
      obtain ⟨hs1, hf1⟩ := noSend_step st e hst he
      obtain ⟨hs2, hf2⟩ := ih _ hs1 hrest
      refine ⟨hs2, ?_⟩
      simp [runEvents, List.filter_append, hf1, hf2]

/-- C1: every received message event appends the message to the end of the
chat history, computed from the history current at receipt (the functional
updater of Home.tsx line 95), so that any sequence of received messages ends
up in the history, complete and in receipt order. -/
theorem C1_message_append_in_order (st : ClientState) (msgs : List IMessage) :
    (runEvents st (msgs.map Event.messageEvt)).1.chatHistory = st.chatHistory ++ msgs := by
  induction msgs generalizing st with
  | nil => simp [runEvents]
  | cons m rest ih =>
      simp [runEvents, step, messageUpdater, ih]

/-- C2: a local message submit while logged in builds the message from the
draft text, the username, socket.id and the current time, appends exactly
that message once to the local history without waiting for any server event,
clears the draft, and emits the sendmessage event with the message and the
current room. -/
theorem C2_optimistic_echo (st : ClientState) (now : Nat) (h : st.loggedIn = true) :
    step st (Event.messageSubmit now)
      = ({ st with chatHistory := st.chatHistory ++ [mkMessage st now], message := "" },
         [Emit.socketEmit "sendmessage" (Payload.messagePayload (mkMessage st now) st.room)])
    ∧ mkMessage st now
      = { text := st.message, sender := st.username, socketId := st.socketId
        , timestamp := now } := by
  refine ⟨?_, rfl⟩
  simp [step, h]

theorem C2_optimistic_echo_witness :
    sampleLoggedIn.loggedIn = true
    ∧ (step sampleLoggedIn (Event.messageSubmit 7)
        = ({ sampleLoggedIn with
              chatHistory := sampleLoggedIn.chatHistory ++ [mkMessage sampleLoggedIn 7]
            , message := "" },
           [Emit.socketEmit "sendmessage"
              (Payload.messagePayload (mkMessage sampleLoggedIn 7) sampleLoggedIn.room)])
      ∧ mkMessage sampleLoggedIn 7
        = { text := sampleLoggedIn.message, sender := sampleLoggedIn.username
          , socketId := sampleLoggedIn.socketId, timestamp := 7 }) :=
  ⟨rfl, C2_optimistic_echo sampleLoggedIn 7 rfl⟩

/-- C3 counterexample: at a concrete logged-out state the identity submit
emits exactly one socket event, and the name of that event is setUsername,
not setIdentity; hence the client never emits an event named setIdentity. -/
theorem C3_event_name_counterexample :
    (step { initialState "s" with username := "alice" } Event.usernameSubmit).2
      = [Emit.socketEmit "setUsername" (Payload.identityPayload "alice" Room.blue)]
    ∧ "setUsername" ≠ "setIdentity" :=
  ⟨rfl, by decide⟩

/-- C3 amended: every local submit of the identity form while logged out
emits exactly one client-to-server event, named setUsername, whose payload is
the current username and room, and changes no local state. -/
theorem C3_setUsername_emit (st : ClientState) (h : st.loggedIn = false) :
    step st Event.usernameSubmit
      = (st, [Emit.socketEmit "setUsername" (Payload.identityPayload st.username st.room)]) := by
  simp [step, h]

theorem C3_setUsername_emit_witness :
    (initialState "s").loggedIn = false
    ∧ step (initialState "s") Event.usernameSubmit
        = (initialState "s",
           [Emit.socketEmit "setUsername"
              (Payload.identityPayload (initialState "s").username (initialState "s").room)]) :=
  ⟨rfl, C3_setUsername_emit (initialState "s") rfl⟩

/-- C4: on receiving the loggedin event an unauthenticated client becomes
authenticated and issues exactly one presence query, the HTTP GET of
/online-users. -/
theorem C4_loggedin_fetch (st : ClientState) (_h : st.loggedIn = false) :
    (step st Event.loggedinEvt).1.loggedIn = true
    ∧ (step st Event.loggedinEvt).2 = [Emit.httpGet "/online-users"] :=
  ⟨rfl, rfl⟩

theorem C4_loggedin_fetch_witness :
    (initialState "s").loggedIn = false
    ∧ ((step (initialState "s") Event.loggedinEvt).1.loggedIn = true
       ∧ (step (initialState "s") Event.loggedinEvt).2 = [Emit.httpGet "/online-users"]) :=
  ⟨rfl, C4_loggedin_fetch (initialState "s") rfl⟩

/-- C5: a newConnection signal at a reachable logged-out state changes
nothing and triggers nothing, because the listener is only registered inside
the loggedin handler; at a reachable authenticated state the signal leaves
the state unchanged and unconditionally triggers one full presence re-fetch
per registered listener, of which there is at least one. -/
theorem C5_newConnection_refetch (sid : String) (evtsA evtsB : List Event)
    (hA : (clientAfter sid evtsA).loggedIn = false)
    (hB : (clientAfter sid evtsB).loggedIn = true) :
    step (clientAfter sid evtsA) Event.newConnectionEvt = (clientAfter sid evtsA, [])
    ∧ step (clientAfter sid evtsB) Event.newConnectionEvt
        = (clientAfter sid evtsB,
           List.replicate (clientAfter sid evtsB).newConnListeners (Emit.httpGet "/online-users"))
    ∧ 1 ≤ (clientAfter sid evtsB).newConnListeners := by
  have invA := listenerInv_clientAfter sid evtsA
  have invB := listenerInv_clientAfter sid evtsB
  have hzero : (clientAfter sid evtsA).newConnListeners = 0 := invA.mp hA
  refine ⟨?_, rfl, ?_⟩
  · simp [step, hzero]
  · rcases Nat.eq_zero_or_pos (clientAfter sid evtsB).newConnListeners with h0 | h1
    · rw [invB.mpr h0] at hB; exact absurd hB (by decide)
    · exact h1

theorem C5_newConnection_refetch_witness :
    (clientAfter "s" []).loggedIn = false
    ∧ (clientAfter "s" [Event.loggedinEvt]).loggedIn = true
    ∧ (step (clientAfter "s" []) Event.newConnectionEvt = (clientAfter "s" [], [])
       ∧ step (clientAfter "s" [Event.loggedinEvt]) Event.newConnectionEvt
           = (clientAfter "s" [Event.loggedinEvt],
              List.replicate (clientAfter "s" [Event.loggedinEvt]).newConnListeners
                (Emit.httpGet "/online-users"))
       ∧ 1 ≤ (clientAfter "s" [Event.loggedinEvt]).newConnListeners) :=
  ⟨by decide, by decide,
   C5_newConnection_refetch "s" [] [Event.loggedinEvt] (by decide) (by decide)⟩

/-- C6: whatever completions of overlapping presence queries precede it, the
last-completed query that resolves with a snapshot replaces the whole
online-users list with exactly that snapshot; no merging with any earlier or
concurrent result occurs. -/
theorem C6_last_snapshot_wins (st : ClientState) (outs : List FetchOutcome)
    (ok : Bool) (snapshot : List IUser) :
    (List.foldl fetchComplete st
        (outs ++ [FetchOutcome.resolved ok (some snapshot)])).onlineUsers = some snapshot := by
  simp [List.foldl_append, fetchComplete]

/-- C7 counterexample: after the client submits its identity and logs in, the
room toggle is still available and clicking it changes the room from blue to
red, so a client operation does change the room after identity is set. -/
theorem C7_room_change_counterexample :
    (clientAfter "s" [Event.usernameSubmit, Event.loggedinEvt]).loggedIn = true
    ∧ (clientAfter "s" [Event.usernameSubmit, Event.loggedinEvt]).room = Room.blue
    ∧ (step (clientAfter "s" [Event.usernameSubmit, Event.loggedinEvt])
          Event.roomToggle).1.room = Room.red := by
  decide

/-- C7 amended: the room label ranges over the closed two-element set of blue
and red and starts as blue; the room toggle is the only operation that
changes it, swapping blue and red, and it remains enabled after identity
submission, so the room label can still change after identity is set. -/
theorem C7_room_toggle_only (st : ClientState) (e : Event) (h : e ≠ Event.roomToggle) :
    (step st e).1.room = st.room
    ∧ (step st Event.roomToggle).1.room
        = (if st.room = Room.blue then Room.red else Room.blue) := by
  refine ⟨?_, rfl⟩
  cases e with
  | connectEvt => rfl
  | loggedinEvt => rfl
  | newConnectionEvt => rfl
  | messageEvt m => rfl
  | usernameInput v => simp only [step]; split <;> rfl
  | messageInput v => simp only [step]; split <;> rfl
  | roomToggle => exact absurd rfl h
  | usernameSubmit => simp only [step]; split <;> rfl
  | messageSubmit now => simp only [step]; split <;> rfl
  | fetchCompleteEvt outcome => cases outcome <;> rfl

theorem C7_room_toggle_only_witness :
    (Event.connectEvt ≠ Event.roomToggle)
    ∧ ((step (initialState "s") Event.connectEvt).1.room = (initialState "s").room
       ∧ (step (initialState "s") Event.roomToggle).1.room
           = (if (initialState "s").room = Room.blue then Room.red else Room.blue)) :=
  ⟨by decide, C7_room_toggle_only (initialState "s") Event.connectEvt (by decide)⟩

/-- C8: when the client holds a fetched snapshot, the displayed list contains
a user exactly when that user is in the snapshot and its room equals the
currently selected room, and the rendered entries are the usernames of
exactly the filtered users. -/
theorem C8_room_filtered_view (st : ClientState) (snapshot : List IUser) (u : IUser)
    (h : st.onlineUsers = some snapshot) :
    (u ∈ displayedUsers (st.onlineUsers.getD []) st.room ↔ u ∈ snapshot ∧ u.room = st.room)
    ∧ displayedUsernames (st.onlineUsers.getD []) st.room
        = List.map IUser.username (displayedUsers (st.onlineUsers.getD []) st.room) := by
  refine ⟨?_, rfl⟩
  simp [h, displayedUsers, List.mem_filter]

theorem C8_room_filtered_view_witness :
    sampleFetched.onlineUsers = some [aliceUser, bobUser]
    ∧ ((aliceUser ∈ displayedUsers (sampleFetched.onlineUsers.getD []) sampleFetched.room
        ↔ aliceUser ∈ [aliceUser, bobUser] ∧ aliceUser.room = sampleFetched.room)
       ∧ displayedUsernames (sampleFetched.onlineUsers.getD []) sampleFetched.room
          = List.map IUser.username
              (displayedUsers (sampleFetched.onlineUsers.getD []) sampleFetched.room)) :=
  ⟨rfl, C8_room_filtered_view sampleFetched [aliceUser, bobUser] aliceUser rfl⟩

/-- C9: evaluation at the failing input. A resolved non-success response
whose JSON body lacks an onlineUsers member replaces the held list with
undefined (none), because if (response) tests the Response object rather than
its ok flag; a rejected fetch, by contrast, leaves the list stale as the
claim demands. -/
theorem C9_nonsuccess_overwrites :
    (fetchComplete { initialState "s" with onlineUsers := some [aliceUser] }
        (FetchOutcome.resolved false none)).onlineUsers = none
    ∧ (fetchComplete { initialState "s" with onlineUsers := some [aliceUser] }
        FetchOutcome.rejected).onlineUsers = some [aliceUser] :=
  ⟨rfl, rfl⟩

/-- C10: a trace that never delivers the loggedin event emits no sendmessage
event, and at the state reached by such a trace the message submit handler
cannot fire, the message input being disabled while logged out. -/
theorem C10_no_send_before_login (sid : String) (evts : List Event) (now : Nat)
    (h : Event.loggedinEvt ∉ evts) :
    List.filter isSendMessage (runEvents (initialState sid) evts).2 = []
    ∧ step (clientAfter sid evts) (Event.messageSubmit now) = (clientAfter sid evts, []) := by
  obtain ⟨hs, hf⟩ := noSend_run (initialState sid) evts rfl h
  refine ⟨hf, ?_⟩
  simp [step, clientAfter, hs]

theorem C10_no_send_before_login_witness :
    (Event.loggedinEvt
        ∉ [Event.connectEvt, Event.usernameSubmit, Event.messageSubmit 42,
            Event.newConnectionEvt])
    ∧ (List.filter isSendMessage
          (runEvents (initialState "s")
            [Event.connectEvt, Event.usernameSubmit, Event.messageSubmit 42,
              Event.newConnectionEvt]).2 = []
       ∧ step
            (clientAfter "s"
              [Event.connectEvt, Event.usernameSubmit, Event.messageSubmit 42,
                Event.newConnectionEvt])
            (Event.messageSubmit 43)
          = (clientAfter "s"
              [Event.connectEvt, Event.usernameSubmit, Event.messageSubmit 42,
                Event.newConnectionEvt], [])) :=
  ⟨by decide,
   C10_no_send_before_login "s"
     [Event.connectEvt, Event.usernameSubmit, Event.messageSubmit 42, Event.newConnectionEvt]
     43 (by decide)⟩

end ChatClient
